import Mathlib

/-!
Verification of the client-side cart/order state machine and the
session store of the AI-Health-Guidance medicine portal.

The cart model follows `frontend/app/prescriptions/page.tsx`
(`addToCart`, `updateQuantity`, `total`, `handlePlaceOrder`,
`confirmOrder`); the session model follows
`frontend/lib/auth-context.tsx` (the restore effect, `login`,
`logout`); the notification poller follows the consultations page
(`loadNotifications`). TypeScript numbers that hold prices and
quantities are modelled as `Int` (all arithmetic in the slice is
addition and multiplication on exact values), ids of medicines as
`Nat`, and `localStorage` as a record of two optional string cells.
-/

namespace Portal

/-! ### Cart data model (`prescriptions/page.tsx`) -/

/-- A cart row: `{ id, name, price, quantity }`. -/
structure CartItem where
  id : Nat
  name : String
  price : Int
  quantity : Int
deriving DecidableEq, Repr

/-- `addToCart(medicine)`: if `cart.find(m => m.id === medicine.id)` hits,
map over the cart incrementing the matching row's quantity; otherwise
append `{ ...medicine, quantity: 1 }`. -/
def addToCart (cart : List CartItem) (medicine : CartItem) : List CartItem :=
  if (cart.find? (fun m => m.id == medicine.id)).isSome then
    cart.map (fun m => if m.id = medicine.id then { m with quantity := m.quantity + 1 } else m)
  else
    cart ++ [{ medicine with quantity := 1 }]

/-- `updateQuantity(id, qty)`: `qty < 1` filters the row out; otherwise
map over the cart replacing the matching row's quantity with `qty`. -/
def updateQuantity (cart : List CartItem) (id : Nat) (qty : Int) : List CartItem :=
  if qty < 1 then
    cart.filter (fun m => m.id != id)
  else
    cart.map (fun m => if m.id = id then { m with quantity := qty } else m)

/-- `total = cart.reduce((sum, m) => sum + m.price * m.quantity, 0)`. -/
def total (cart : List CartItem) : Int :=
  cart.foldl (fun sum m => sum + m.price * m.quantity) 0

/-- A cart mutation: an `addToCart` click or an `updateQuantity` edit. -/
inductive CartOp where
  | add (medicine : CartItem)
  | setQty (id : Nat) (qty : Int)
deriving DecidableEq, Repr

/-- Apply one cart mutation. -/
def applyOp (cart : List CartItem) : CartOp → List CartItem
  | .add m => addToCart cart m
  | .setQty id qty => updateQuantity cart id qty

/-- Run a sequence of cart mutations from the initial empty cart
(`useState<any[]>([])`). -/
def runOps (ops : List CartOp) : List CartItem :=
  ops.foldl applyOp []

/-- Run a sequence of plain `addToCart` calls from the empty cart. -/
def runAdds (ms : List CartItem) : List CartItem :=
  ms.foldl addToCart []

/-! ### Measurement helpers used to state the cart properties -/

/-- The ids of the cart rows, in display order. -/
def cartIds (cart : List CartItem) : List Nat :=
  cart.map (·.id)

/-- Total quantity stored in the cart under a given id. -/
def qtyOf : List CartItem → Nat → Int
  | [], _ => 0
  | m :: rest, j => (if m.id = j then m.quantity else 0) + qtyOf rest j

/-- How many entries of a list of medicines carry a given id. -/
def countId : List CartItem → Nat → Nat
  | [], _ => 0
  | m :: rest, j => (if m.id = j then 1 else 0) + countId rest j

/-- First-occurrence order of ids: fold that appends an id only when it
is new.  This is the reference order for "existing rows keep their
position, new rows append at the end". -/
def idOrder (ms : List CartItem) : List Nat :=
  ms.foldl (fun acc m => if m.id ∈ acc then acc else acc ++ [m.id]) []

/-! ### Basic lemmas about the cart operations -/

lemma cartIds_cons (x : CartItem) (t : List CartItem) :
    cartIds (x :: t) = x.id :: cartIds t := rfl

lemma qtyOf_append (l₁ l₂ : List CartItem) (j : Nat) :
    qtyOf (l₁ ++ l₂) j = qtyOf l₁ j + qtyOf l₂ j := by
  induction l₁ with
  | nil => simp [qtyOf]
  | cons x t ih => simp [qtyOf, ih]; ring

lemma find?_isSome_iff_mem (cart : List CartItem) (i : Nat) :
    (cart.find? (fun m => m.id == i)).isSome = true ↔ i ∈ cartIds cart := by
  induction cart with
  | nil => simp [cartIds]
  | cons x t ih =>
    by_cases hx : x.id = i
    · simp [List.find?, cartIds, hx]
    · have : (x.id == i) = false := by simpa using hx
      simp [List.find?, this, cartIds, ih, Ne.symm hx]

/-- Incrementing an absent id is the identity map. -/
lemma map_inc_of_not_mem (cart : List CartItem) (i : Nat) (h : i ∉ cartIds cart) :
    cart.map (fun m => if m.id = i then { m with quantity := m.quantity + 1 } else m) = cart := by
  induction cart with
  | nil => rfl
  | cons x t ih =>
    rw [cartIds_cons] at h
    have h1 : ¬ x.id = i := fun he => h (by rw [he]; exact List.mem_cons_self _ _)
    have h2 : i ∉ cartIds t := fun hm => h (List.mem_cons_of_mem _ hm)
    simp [h1, ih h2]

lemma cartIds_map_inc (cart : List CartItem) (i : Nat) :
    cartIds (cart.map (fun m => if m.id = i then { m with quantity := m.quantity + 1 } else m))
      = cartIds cart := by
  induction cart with
  | nil => rfl
  | cons x t ih =>
    by_cases hx : x.id = i <;> simp [cartIds, hx] <;> simpa [cartIds] using ih

/-- How the id list evolves under `addToCart`. -/
lemma addToCart_ids (cart : List CartItem) (m : CartItem) :
    cartIds (addToCart cart m)
      = if m.id ∈ cartIds cart then cartIds cart else cartIds cart ++ [m.id] := by
  by_cases hmem : m.id ∈ cartIds cart
  · have hfind : (cart.find? (fun x => x.id == m.id)).isSome = true :=
      (find?_isSome_iff_mem cart m.id).mpr hmem
    rw [if_pos hmem, addToCart, if_pos (by simp [hfind]), cartIds_map_inc]
  · have hfind : (cart.find? (fun x => x.id == m.id)).isSome = false := by
      by_contra hc
      exact hmem ((find?_isSome_iff_mem cart m.id).mp (by simpa using hc))
    rw [if_neg hmem, addToCart, if_neg (by simp [hfind])]
    simp [cartIds]

lemma mem_cartIds_of_mem {cart : List CartItem} {item : CartItem}
    (h : item ∈ cart) : item.id ∈ cartIds cart :=
  List.mem_map_of_mem _ h

lemma qtyOf_eq_zero_of_not_mem (cart : List CartItem) (j : Nat)
    (h : j ∉ cartIds cart) : qtyOf cart j = 0 := by
  induction cart with
  | nil => rfl
  | cons x t ih =>
    rw [cartIds_cons] at h
    have h1 : ¬ x.id = j := fun he => h (by rw [he]; exact List.mem_cons_self _ _)
    have h2 : j ∉ cartIds t := fun hm => h (List.mem_cons_of_mem _ hm)
    simp [qtyOf, h1, ih h2]

lemma qtyOf_map_inc (cart : List CartItem) (i j : Nat)
    (hnd : (cartIds cart).Nodup) (hmem : i ∈ cartIds cart) :
    qtyOf (cart.map (fun m => if m.id = i then { m with quantity := m.quantity + 1 } else m)) j
      = qtyOf cart j + (if j = i then 1 else 0) := by
  induction cart with
  | nil => simp [cartIds] at hmem
  | cons x t ih =>
    rw [cartIds_cons] at hnd hmem
    obtain ⟨hx, hndt⟩ := List.nodup_cons.mp hnd
    by_cases hxi : x.id = i
    · have ht : i ∉ cartIds t := by rwa [hxi] at hx
      rw [List.map_cons]
      simp only [if_pos hxi, map_inc_of_not_mem t i ht]
      by_cases hji : j = i
      · simp [qtyOf, hxi, hji]; ring
      · have hxj : ¬ x.id = j := by rw [hxi]; exact fun he => hji he.symm
        simp [qtyOf, hxj, hji]
    · have hti : i ∈ cartIds t := by
        rcases List.mem_cons.mp hmem with h | h
        · exact absurd h.symm hxi
        · exact h
      rw [List.map_cons]
      simp only [if_neg hxi]
      simp [qtyOf, ih hndt hti]
      ring

lemma addToCart_qty (cart : List CartItem) (m : CartItem) (j : Nat)
    (hnd : (cartIds cart).Nodup) :
    qtyOf (addToCart cart m) j = qtyOf cart j + (if j = m.id then 1 else 0) := by
  by_cases hmem : m.id ∈ cartIds cart
  · have hfind := (find?_isSome_iff_mem cart m.id).mpr hmem
    rw [addToCart, if_pos (by simp [hfind])]
    exact qtyOf_map_inc cart m.id j hnd hmem
  · have hfind : (cart.find? (fun x => x.id == m.id)).isSome = false := by
      by_contra hc
      exact hmem ((find?_isSome_iff_mem cart m.id).mp (by simpa using hc))
    rw [addToCart, if_neg (by simp [hfind]), qtyOf_append]
    by_cases hj : j = m.id
    · simp [qtyOf, hj]
    · simp [qtyOf, hj, Ne.symm hj]

lemma addToCart_nodup (cart : List CartItem) (m : CartItem)
    (hnd : (cartIds cart).Nodup) : (cartIds (addToCart cart m)).Nodup := by
  rw [addToCart_ids]
  by_cases hmem : m.id ∈ cartIds cart
  · simpa [hmem] using hnd
  · rw [if_neg hmem]
    simp [List.nodup_append, hnd, hmem]

lemma foldl_addToCart_spec (ms : List CartItem) : ∀ cart : List CartItem,
    (cartIds cart).Nodup →
    (cartIds (ms.foldl addToCart cart)).Nodup ∧
    cartIds (ms.foldl addToCart cart)
      = ms.foldl (fun acc m => if m.id ∈ acc then acc else acc ++ [m.id]) (cartIds cart) ∧
    ∀ j, qtyOf (ms.foldl addToCart cart) j = qtyOf cart j + (countId ms j : Int) := by
  induction ms with
  | nil =>
    intro cart hnd
    exact ⟨hnd, rfl, by simp [countId]⟩
  | cons m rest ih =>
    intro cart hnd
    obtain ⟨h1, h2, h3⟩ := ih (addToCart cart m) (addToCart_nodup cart m hnd)
    refine ⟨h1, ?_, ?_⟩
    · rw [List.foldl_cons, List.foldl_cons, h2, addToCart_ids]
    · intro j
      rw [List.foldl_cons, h3 j, addToCart_qty cart m j hnd]
      by_cases hj : j = m.id
      · simp [countId, hj]
        ring
      · simp [countId, hj, Ne.symm hj]

lemma mem_foldl_idOrder (ms : List CartItem) : ∀ (acc : List Nat) (j : Nat),
    (j ∈ ms.foldl (fun acc m => if m.id ∈ acc then acc else acc ++ [m.id]) acc)
      ↔ j ∈ acc ∨ j ∈ ms.map (·.id) := by
  induction ms with
  | nil => simp
  | cons m rest ih =>
    intro acc j
    rw [List.foldl_cons]
    by_cases hm : m.id ∈ acc
    · rw [if_pos hm, ih]
      simp only [List.map_cons, List.mem_cons]
      constructor
      · rintro (h | h)
        · exact Or.inl h
        · exact Or.inr (Or.inr h)
      · rintro (h | h | h)
        · exact Or.inl h
        · exact Or.inl (h ▸ hm)
        · exact Or.inr h
    · rw [if_neg hm, ih]
      simp only [List.mem_append, List.mem_singleton, List.map_cons, List.mem_cons]
      tauto

lemma qtyOf_of_mem (cart : List CartItem) (item : CartItem)
    (hnd : (cartIds cart).Nodup) (hmem : item ∈ cart) :
    qtyOf cart item.id = item.quantity := by
  induction cart with
  | nil => cases hmem
  | cons x t ih =>
    rw [cartIds_cons] at hnd
    obtain ⟨hx, hndt⟩ := List.nodup_cons.mp hnd
    rcases List.mem_cons.mp hmem with rfl | hmt
    · simp [qtyOf, qtyOf_eq_zero_of_not_mem t item.id hx]
    · have hxid : ¬ x.id = item.id :=
        fun he => hx (he ▸ mem_cartIds_of_mem hmt)
      simp [qtyOf, hxid, ih hndt hmt]

/-! ### C1 — sequences of `addItem` calls -/

/-- C1: for every sequence of `addToCart` calls starting from the empty
cart, the cart holds exactly one row per distinct id (the id list has no
duplicates and an id is present iff it was added), each row's quantity
equals the number of times that id was added, and the row ids stand in
first-occurrence order — existing rows keep their position and a newly
added id is appended at the end (`idOrder`). -/
theorem addItem_sequences_correct (ms : List CartItem) :
    (cartIds (runAdds ms)).Nodup ∧
    (∀ j, j ∈ cartIds (runAdds ms) ↔ j ∈ ms.map (·.id)) ∧
    (∀ item ∈ runAdds ms, item.quantity = (countId ms item.id : Int)) ∧
    cartIds (runAdds ms) = idOrder ms := by
  obtain ⟨h1, h2, h3⟩ := foldl_addToCart_spec ms [] (by simp [cartIds])
  refine ⟨h1, ?_, ?_, ?_⟩
  · intro j
    rw [runAdds, h2]
    have := mem_foldl_idOrder ms (cartIds []) j
    simpa [cartIds] using this
  · intro item hmem
    have hq := qtyOf_of_mem (runAdds ms) item h1 hmem
    have := h3 item.id
    rw [runAdds] at hq
    rw [this] at hq
    simpa [qtyOf] using hq.symm
  · rw [runAdds, h2]
    rfl

/-- Concrete instantiation of the membership hypothesis in C1: adding
Dolo, Zincovit, Dolo yields a Dolo row of quantity two. -/
theorem addItem_sequences_correct_witness :
    (⟨7, "Dolo", 30, 2⟩ : CartItem) ∈ runAdds
        [⟨7, "Dolo", 30, 1⟩, ⟨8, "Zincovit", 110, 1⟩, ⟨7, "Dolo", 30, 1⟩] ∧
    (⟨7, "Dolo", 30, 2⟩ : CartItem).quantity
      = (countId [⟨7, "Dolo", 30, 1⟩, ⟨8, "Zincovit", 110, 1⟩, ⟨7, "Dolo", 30, 1⟩] 7 : Int) :=
  ⟨by decide,
   (addItem_sequences_correct
      [⟨7, "Dolo", 30, 1⟩, ⟨8, "Zincovit", 110, 1⟩, ⟨7, "Dolo", 30, 1⟩]).2.2.1
      ⟨7, "Dolo", 30, 2⟩ (by decide)⟩

/-! ### C2 — the displayed total -/

lemma total_eq_map_sum (cart : List CartItem) :
    total cart = (cart.map (fun m => m.price * m.quantity)).sum := by
  have h : ∀ (init : Int) (l : List CartItem),
      l.foldl (fun sum m => sum + m.price * m.quantity) init
        = init + (l.map (fun m => m.price * m.quantity)).sum := by
    intro init l
    induction l generalizing init with
    | nil => simp
    | cons x t ih => simp [List.foldl_cons, ih]; ring
  simpa [total] using h 0 cart

/-- C2: after any interleaving of `addToCart` and `updateQuantity`
operations from the empty cart, the displayed `total` equals the sum
over all cart rows of price times quantity; `total` is a pure function
recomputed from the current rows, never an incrementally updated
cache. -/
theorem total_recomputed_correct (ops : List CartOp) :
    total (runOps ops) = ((runOps ops).map (fun m => m.price * m.quantity)).sum :=
  total_eq_map_sum (runOps ops)

/-! ### C3 — `setQuantity` and the positive-quantity invariant -/

lemma map_setQty_of_not_mem (cart : List CartItem) (i : Nat) (q : Int)
    (h : i ∉ cartIds cart) :
    cart.map (fun m => if m.id = i then { m with quantity := q } else m) = cart := by
  induction cart with
  | nil => rfl
  | cons x t ih =>
    rw [cartIds_cons] at h
    have h1 : ¬ x.id = i := fun he => h (by rw [he]; exact List.mem_cons_self _ _)
    have h2 : i ∉ cartIds t := fun hm => h (List.mem_cons_of_mem _ hm)
    simp [h1, ih h2]

lemma updateQuantity_absent (cart : List CartItem) (i : Nat) (q : Int)
    (h : i ∉ cartIds cart) : updateQuantity cart i q = cart := by
  by_cases hq : q < 1
  · rw [updateQuantity, if_pos hq]
    apply List.filter_eq_self.mpr
    intro a ha
    have : ¬ a.id = i := fun he => h (he ▸ mem_cartIds_of_mem ha)
    simpa using this
  · rw [updateQuantity, if_neg hq]
    exact map_setQty_of_not_mem cart i q h

lemma updateQuantity_removes (cart : List CartItem) (i : Nat) (q : Int) (hq : q < 1) :
    updateQuantity cart i q = cart.filter (fun m => m.id != i) ∧
    i ∉ cartIds (updateQuantity cart i q) := by
  refine ⟨by rw [updateQuantity, if_pos hq], ?_⟩
  rw [updateQuantity, if_pos hq]
  intro hmem
  rw [cartIds] at hmem
  obtain ⟨x, hx, hxi⟩ := List.mem_map.mp hmem
  have hkeep := (List.mem_filter.mp hx).2
  simp [hxi] at hkeep

lemma updateQuantity_ids (cart : List CartItem) (i : Nat) (q : Int) (hq : 1 ≤ q) :
    cartIds (updateQuantity cart i q) = cartIds cart := by
  rw [updateQuantity, if_neg (by omega)]
  induction cart with
  | nil => rfl
  | cons x t ih =>
    by_cases hx : x.id = i <;> simp [cartIds, hx] <;> simpa [cartIds] using ih

lemma updateQuantity_sets (cart : List CartItem) (i : Nat) (q : Int) (hq : 1 ≤ q) :
    ∀ m ∈ updateQuantity cart i q, (m.id = i → m.quantity = q) ∧ (m.id ≠ i → m ∈ cart) := by
  intro m hm
  rw [updateQuantity, if_neg (by omega)] at hm
  obtain ⟨y, hy, hym⟩ := List.mem_map.mp hm
  by_cases hyi : y.id = i
  · rw [if_pos hyi] at hym
    subst hym
    exact ⟨fun _ => rfl, fun hne => absurd hyi hne⟩
  · rw [if_neg hyi] at hym
    subst hym
    exact ⟨fun he => absurd he hyi, fun _ => hy⟩

lemma addToCart_qty_pos (cart : List CartItem) (m : CartItem)
    (h : ∀ x ∈ cart, 1 ≤ x.quantity) : ∀ x ∈ addToCart cart m, 1 ≤ x.quantity := by
  intro x hx
  by_cases hc : (cart.find? (fun y => y.id == m.id)).isSome
  · rw [addToCart, if_pos hc] at hx
    obtain ⟨y, hy, hyx⟩ := List.mem_map.mp hx
    by_cases hyi : y.id = m.id
    · rw [if_pos hyi] at hyx
      subst hyx
      have := h y hy
      show (1 : Int) ≤ y.quantity + 1
      omega
    · rw [if_neg hyi] at hyx
      subst hyx
      exact h y hy
  · rw [addToCart, if_neg hc] at hx
    rcases List.mem_append.mp hx with h1 | h1
    · exact h x h1
    · simp only [List.mem_singleton] at h1
      subst h1
      show (1 : Int) ≤ 1
      omega

lemma updateQuantity_qty_pos (cart : List CartItem) (i : Nat) (q : Int)
    (h : ∀ x ∈ cart, 1 ≤ x.quantity) : ∀ x ∈ updateQuantity cart i q, 1 ≤ x.quantity := by
  intro x hx
  by_cases hq : q < 1
  · rw [updateQuantity, if_pos hq] at hx
    exact h x (List.mem_of_mem_filter hx)
  · rw [updateQuantity, if_neg hq] at hx
    obtain ⟨y, hy, hyx⟩ := List.mem_map.mp hx
    by_cases hyi : y.id = i
    · rw [if_pos hyi] at hyx
      subst hyx
      show (1 : Int) ≤ q
      omega
    · rw [if_neg hyi] at hyx
      subst hyx
      exact h y hy

lemma runOps_qty_pos (ops : List CartOp) : ∀ x ∈ runOps ops, 1 ≤ x.quantity := by
  have h : ∀ (ops : List CartOp) (cart : List CartItem),
      (∀ x ∈ cart, 1 ≤ x.quantity) → ∀ x ∈ ops.foldl applyOp cart, 1 ≤ x.quantity := by
    intro ops
    induction ops with
    | nil => intro cart h; simpa using h
    | cons op rest ih =>
      intro cart h
      rw [List.foldl_cons]
      apply ih
      cases op with
      | add m => exact addToCart_qty_pos cart m h
      | setQty i q => exact updateQuantity_qty_pos cart i q h
  exact h ops [] (by simp)

/-- C3: `updateQuantity` with `qty < 1` (in particular `0`) removes the
row with that id; with `qty ≥ 1` it keeps every id in place and sets the
matching row's quantity to `qty` while leaving every other row as it
was; it is a no-op (not an error) when the id is absent; and after any
sequence of `addToCart`/`updateQuantity` operations from the empty cart
no row has a quantity ≤ 0. -/
theorem setQuantity_spec :
    (∀ (cart : List CartItem) (i : Nat) (q : Int), q < 1 →
        updateQuantity cart i q = cart.filter (fun m => m.id != i) ∧
        i ∉ cartIds (updateQuantity cart i q)) ∧
    (∀ (cart : List CartItem) (i : Nat) (q : Int), 1 ≤ q →
        cartIds (updateQuantity cart i q) = cartIds cart ∧
        ∀ m ∈ updateQuantity cart i q,
          (m.id = i → m.quantity = q) ∧ (m.id ≠ i → m ∈ cart)) ∧
    (∀ (cart : List CartItem) (i : Nat) (q : Int),
        i ∉ cartIds cart → updateQuantity cart i q = cart) ∧
    (∀ (ops : List CartOp), ∀ m ∈ runOps ops, ¬ m.quantity ≤ 0) := by
  refine ⟨?_, ?_, ?_, ?_⟩
  · intro cart i q hq
    exact updateQuantity_removes cart i q hq
  · intro cart i q hq
    exact ⟨updateQuantity_ids cart i q hq, updateQuantity_sets cart i q hq⟩
  · intro cart i q h
    exact updateQuantity_absent cart i q h
  · intro ops m hm
    have := runOps_qty_pos ops m hm
    omega

/-- Concrete instantiation of the hypotheses of C3: removal at quantity
zero, setting to five, no-op on an absent id, and positivity of a row
produced by one add. -/
theorem setQuantity_spec_witness :
    (updateQuantity [⟨1, "Azithral", 85, 2⟩] 1 0
        = List.filter (fun m => m.id != 1) [⟨1, "Azithral", 85, 2⟩] ∧
      1 ∉ cartIds (updateQuantity [⟨1, "Azithral", 85, 2⟩] 1 0)) ∧
    cartIds (updateQuantity [⟨1, "Azithral", 85, 2⟩] 1 5)
      = cartIds [⟨1, "Azithral", 85, 2⟩] ∧
    updateQuantity [⟨1, "Azithral", 85, 2⟩] 2 7 = [⟨1, "Azithral", 85, 2⟩] ∧
    ¬ (⟨1, "Azithral", 85, 1⟩ : CartItem).quantity ≤ 0 :=
  ⟨setQuantity_spec.1 [⟨1, "Azithral", 85, 2⟩] 1 0 (by decide),
   (setQuantity_spec.2.1 [⟨1, "Azithral", 85, 2⟩] 1 5 (by decide)).1,
   setQuantity_spec.2.2.1 [⟨1, "Azithral", 85, 2⟩] 2 7 (by decide),
   setQuantity_spec.2.2.2 [CartOp.add ⟨1, "Azithral", 85, 1⟩]
     ⟨1, "Azithral", 85, 1⟩ (by decide)⟩

/-! ### Checkout (`handlePlaceOrder` / `confirmOrder`) -/

/-- The order-page state touched by checkout: the cart, the address and
phone inputs, and the confirmation-dialog flag. -/
structure OrderState where
  cart : List CartItem
  address : String
  phone : String
  showDialog : Bool
deriving DecidableEq, Repr

/-- `handlePlaceOrder()`: an empty cart raises the toast "Cart is
empty"; a blank address or phone (JS truthiness of the string inputs)
raises "Fill all fields"; otherwise the confirm dialog opens.  The
second component is the validation-error message, `none` meaning the
action proceeds. -/
def handlePlaceOrder (s : OrderState) : OrderState × Option String :=
  if s.cart.length = 0 then (s, some "Cart is empty")
  else if s.address = "" ∨ s.phone = "" then (s, some "Fill all fields")
  else ({ s with showDialog := true }, none)

/-- Outcome of the `api.createOrder` round trip as `confirmOrder` sees
it: a decoded response whose `success` field is truthy or falsy, or a
thrown error (network failure or a body that fails to decode). -/
inductive OrderApiOutcome where
  | ok (success : Bool)
  | thrown
deriving DecidableEq, Repr

/-- `confirmOrder()`: bails out when no user is logged in; on a response
with truthy `success` closes the dialog and clears the cart; on a falsy
`success` or a thrown error leaves the state untouched (the catch block
only raises a toast). -/
def confirmOrder (s : OrderState) (hasUser : Bool) (r : OrderApiOutcome) : OrderState :=
  if hasUser = false then s
  else
    match r with
    | .ok true => { s with showDialog := false, cart := [] }
    | .ok false => s
    | .thrown => s

/-- Whether `needle` occurs as a contiguous run at the head of `hay`. -/
def startsWithChars : List Char → List Char → Bool
  | _, [] => true
  | [], _ :: _ => false
  | c :: cs, d :: ds => c == d && startsWithChars cs ds

/-- Whether `needle` occurs contiguously anywhere in the haystack. -/
def containsChars : List Char → List Char → Bool
  | [], needle => needle.isEmpty
  | c :: cs, needle => startsWithChars (c :: cs) needle || containsChars cs needle

/-- Whether an error message names a given field, as substring
containment. -/
def mentionsField (msg field : String) : Bool :=
  containsChars msg.toList field.toList

/-! ### C4 — checkout validation -/

lemma handlePlaceOrder_cart_eq (s : OrderState) :
    (handlePlaceOrder s).1.cart = s.cart := by
  rw [handlePlaceOrder]
  split
  · rfl
  · split <;> rfl

/-- A checkout state with one row in the cart, a filled address and a
blank phone input. -/
def stateBlankPhone : OrderState :=
  { cart := [⟨1, "Paracetamol", 20, 1⟩], address := "12 Main St",
    phone := "", showDialog := false }

/-- A checkout state with an empty cart and both inputs filled. -/
def stateEmptyCart : OrderState :=
  { cart := [], address := "12 Main St", phone := "9876543210",
    showDialog := false }

/-- A checkout state with one row in the cart and both inputs filled. -/
def stateReady : OrderState :=
  { cart := [⟨1, "Paracetamol", 20, 1⟩], address := "12 Main St",
    phone := "9876543210", showDialog := false }

/-- C4 counterexample: with a non-empty cart, a filled address and a
blank phone, `handlePlaceOrder` raises the single generic message "Fill
all fields", which does not name `phone` (and the same message is
raised for a missing address), contradicting the claim that the
validation error names the missing field. -/
theorem checkout_validation_counterexample :
    (handlePlaceOrder stateBlankPhone).2 = some "Fill all fields" ∧
    mentionsField "Fill all fields" "phone" = false ∧
    mentionsField "Fill all fields" "address" = false := by
  refine ⟨rfl, ?_, ?_⟩ <;> decide

/-- C4 (amended): `handlePlaceOrder` never changes the cart; an empty
cart fails with the validation message "Cart is empty"; a non-empty
cart with a blank address or phone fails with the single generic
validation message "Fill all fields" (not one naming the missing
field); and with all fields filled no validation error is raised. -/
theorem checkout_validation_spec : ∀ s : OrderState,
    (handlePlaceOrder s).1.cart = s.cart ∧
    (s.cart = [] → handlePlaceOrder s = (s, some "Cart is empty")) ∧
    (s.cart ≠ [] → (s.address = "" ∨ s.phone = "") →
        handlePlaceOrder s = (s, some "Fill all fields")) ∧
    (s.cart ≠ [] → s.address ≠ "" → s.phone ≠ "" → (handlePlaceOrder s).2 = none) := by
  intro s
  refine ⟨handlePlaceOrder_cart_eq s, ?_, ?_, ?_⟩
  · intro h
    rw [handlePlaceOrder, if_pos (by simp [h])]
  · intro hc hm
    rw [handlePlaceOrder, if_neg (by simpa using hc), if_pos hm]
  · intro hc ha hp
    rw [handlePlaceOrder, if_neg (by simpa using hc),
      if_neg (by rintro (h | h) <;> [exact ha h; exact hp h])]

/-- Concrete instantiation of the hypotheses of the amended C4. -/
theorem checkout_validation_spec_witness :
    handlePlaceOrder stateEmptyCart = (stateEmptyCart, some "Cart is empty") ∧
    handlePlaceOrder stateBlankPhone = (stateBlankPhone, some "Fill all fields") ∧
    (handlePlaceOrder stateReady).2 = none :=
  ⟨(checkout_validation_spec stateEmptyCart).2.1 rfl,
   (checkout_validation_spec stateBlankPhone).2.2.1 (by decide) (Or.inr rfl),
   (checkout_validation_spec stateReady).2.2.2 (by decide) (by decide) (by decide)⟩

/-! ### C5 — checkout atomicity with respect to the cart -/

/-- C5: checkout is atomic in the cart.  A validation failure in
`handlePlaceOrder` leaves the cart unchanged (it never touches the
cart); when the order request reports success the cart becomes empty;
and on any failure — a thrown network/HTTP error, a falsy `success`
response, or a missing user — the whole state, in particular the cart,
is left exactly as it was. -/
theorem checkout_atomic :
    (∀ s : OrderState, (handlePlaceOrder s).1.cart = s.cart) ∧
    (∀ s : OrderState, (confirmOrder s true (.ok true)).cart = []) ∧
    (∀ (s : OrderState) (hasUser : Bool) (r : OrderApiOutcome),
        r ≠ .ok true ∨ hasUser = false → confirmOrder s hasUser r = s) := by
  refine ⟨handlePlaceOrder_cart_eq, fun s => rfl, ?_⟩
  rintro s hasUser r (hr | hu)
  · cases hasUser
    · rfl
    · cases r with
      | ok b =>
        cases b
        · rfl
        · exact absurd rfl hr
      | thrown => rfl
  · subst hu
    rfl

/-- Concrete instantiation of the failure hypothesis of C5: a thrown
request leaves a one-row cart state untouched. -/
theorem checkout_atomic_witness :
    confirmOrder stateReady true .thrown = stateReady :=
  checkout_atomic.2.2 stateReady true .thrown (Or.inl (by decide))

/-! ### Session store (`lib/auth-context.tsx`) -/

/-- The closed role enum. -/
inductive UserType where
  | patient
  | doctor
deriving DecidableEq, Repr

/-- The active identity: `{ id, name, email, type, specialization?, phone? }`. -/
structure User where
  id : String
  name : String
  email : String
  type : UserType
  specialization : Option String
  phone : Option String
deriving DecidableEq, Repr

/-- The two durable `localStorage` cells the session store touches: the
`user` key (serialized identity) and the `userType` key (role tag).
`none` models an absent key, `getItem` returning `null`. -/
structure Storage where
  user : Option String
  userType : Option String
deriving DecidableEq, Repr

/-- The role tag string written next to the identity. -/
def userTypeStr : UserType → String
  | .patient => "patient"
  | .doctor => "doctor"

/-- Wrap a string in double quotes (none of the roster strings needs
JSON escaping). -/
def quoteJson (s : String) : String := "\"" ++ s ++ "\""

/-- `JSON.stringify` of the user records `login` builds: a flat object
whose keys appear in the literal's insertion order — `id`, `name`,
`email`, `type`, then `specialization` for doctors and `phone` for
patients (`undefined` fields are omitted). -/
def serializeUser (u : User) : String :=
  "\x7b\"id\":" ++ quoteJson u.id
    ++ ",\"name\":" ++ quoteJson u.name
    ++ ",\"email\":" ++ quoteJson u.email
    ++ ",\"type\":" ++ quoteJson (userTypeStr u.type)
    ++ (match u.specialization with
        | some sp => ",\"specialization\":" ++ quoteJson sp
        | none => "")
    ++ (match u.phone with
        | some ph => ",\"phone\":" ++ quoteJson ph
        | none => "")
    ++ "\x7d"

/-- A JSON value as `JSON.parse` yields one.  String and number atoms
keep their raw source text (between the quotes, escapes unprocessed):
the session claims never inspect decoded atom values, only whether the
parse throws and which shape came back. -/
inductive Json where
  | null
  | bool (b : Bool)
  | num (raw : String)
  | str (raw : String)
  | arr (elems : List Json)
  | obj (fields : List (String × Json))

/-- The four characters the JSON grammar treats as whitespace. -/
def isJsonWs (c : Char) : Bool :=
  c == ' ' || c == '\t' || c == '\n' || c == '\r'

/-- Drop leading JSON whitespace. -/
def skipWs : List Char → List Char
  | [] => []
  | c :: cs => if isJsonWs c then skipWs cs else c :: cs

/-- A hexadecimal digit, as in a `\u` escape. -/
def isHexDigit (c : Char) : Bool :=
  c.isDigit || ('a' ≤ c && c ≤ 'f') || ('A' ≤ c && c ≤ 'F')

/-- Validate the remainder of a JSON string literal after its opening
quote: unescaped control characters below U+0020 are refused, escapes
follow the JSON grammar (`\" \\ \/ \b \f \n \r \t \uXXXX`).  Returns
the raw characters between the quotes and the input after the closing
quote. -/
def parseStringChars : List Char → Option (List Char × List Char)
  | [] => none
  | c :: cs =>
    if c == '"' then some ([], cs)
    else if c == '\\' then
      match cs with
      | [] => none
      | e :: cs' =>
        if e == '"' || e == '\\' || e == '/' || e == 'b' || e == 'f'
            || e == 'n' || e == 'r' || e == 't' then
          match parseStringChars cs' with
          | some (out, rest) => some (c :: e :: out, rest)
          | none => none
        else if e == 'u' then
          match cs' with
          | h1 :: h2 :: h3 :: h4 :: cs'' =>
            if isHexDigit h1 && isHexDigit h2 && isHexDigit h3 && isHexDigit h4 then
              match parseStringChars cs'' with
              | some (out, rest) => some (c :: e :: h1 :: h2 :: h3 :: h4 :: out, rest)
              | none => none
            else none
          | _ => none
        else none
    else if c.toNat < 32 then none
    else
      match parseStringChars cs with
      | some (out, rest) => some (c :: out, rest)
      | none => none

/-- Longest run of decimal digits at the head. -/
def takeDigits : List Char → (List Char × List Char)
  | [] => ([], [])
  | c :: cs =>
    if c.isDigit then
      let (ds, rest) := takeDigits cs
      (c :: ds, rest)
    else ([], c :: cs)

/-- Optional fraction part `.digits` of a JSON number. -/
def parseFrac (cs : List Char) : Option (List Char × List Char) :=
  match cs with
  | '.' :: rest =>
    match takeDigits rest with
    | ([], _) => none
    | (ds, rest') => some ('.' :: ds, rest')
  | _ => some ([], cs)

/-- Optional exponent part `(e|E)(+|-)?digits` of a JSON number. -/
def parseExp (cs : List Char) : Option (List Char × List Char) :=
  match cs with
  | [] => some ([], [])
  | c :: rest =>
    if c == 'e' || c == 'E' then
      let (sgn, rest1) : List Char × List Char :=
        match rest with
        | s :: r => if s == '+' || s == '-' then ([s], r) else ([], rest)
        | [] => ([], [])
      match takeDigits rest1 with
      | ([], _) => none
      | (ds, rest2) => some (c :: (sgn ++ ds), rest2)
    else some ([], c :: rest)

/-- A JSON number at the head of the input:
`-?(0|[1-9][0-9]*)(.[0-9]+)?([eE][+-]?[0-9]+)?`.  Returns the raw
lexeme and the rest.  A leading zero followed by a digit yields the
lexeme `0` and leaves the digit, which the caller then refuses — as
`JSON.parse` refuses `01`. -/
def parseNumber (cs : List Char) : Option (List Char × List Char) :=
  let (sgn, cs1) : List Char × List Char :=
    match cs with
    | '-' :: rest => (['-'], rest)
    | _ => ([], cs)
  match cs1 with
  | [] => none
  | c :: rest =>
    if c.isDigit then
      let (ipart, rest1) : List Char × List Char :=
        if c == '0' then (['0'], rest)
        else takeDigits (c :: rest)
      match parseFrac rest1 with
      | some (fpart, rest2) =>
        match parseExp rest2 with
        | some (epart, rest3) => some (sgn ++ ipart ++ fpart ++ epart, rest3)
        | none => none
      | none => none
    else none

/-- Match an exact run of characters. -/
def expectChars : List Char → List Char → Option (List Char)
  | [], cs => some cs
  | _ :: _, [] => none
  | e :: es, c :: cs => if c == e then expectChars es cs else none

mutual

/-- One JSON value at the head of the input, leading JSON whitespace
allowed, by the `JSON.parse` grammar: object, array, string, `true`,
`false`, `null` or number.  The fuel only bounds recursion depth;
`parseJson` supplies more than any input can use. -/
def parseValue : Nat → List Char → Option (Json × List Char)
  | 0, _ => none
  | Nat.succ fuel, cs =>
    match skipWs cs with
    | [] => none
    | c :: rest =>
      if c == '\x7b' then
        match skipWs rest with
        | '\x7d' :: rest' => some (Json.obj [], rest')
        | cs' =>
          match parseMembers fuel cs' with
          | some (ms, rest') => some (Json.obj ms, rest')
          | none => none
      else if c == '[' then
        match skipWs rest with
        | ']' :: rest' => some (Json.arr [], rest')
        | cs' =>
          match parseElems fuel cs' with
          | some (vs, rest') => some (Json.arr vs, rest')
          | none => none
      else if c == '"' then
        match parseStringChars rest with
        | some (raw, rest') => some (Json.str (String.mk raw), rest')
        | none => none
      else if c == 't' then
        match expectChars ['r', 'u', 'e'] rest with
        | some rest' => some (Json.bool true, rest')
        | none => none
      else if c == 'f' then
        match expectChars ['a', 'l', 's', 'e'] rest with
        | some rest' => some (Json.bool false, rest')
        | none => none
      else if c == 'n' then
        match expectChars ['u', 'l', 'l'] rest with
        | some rest' => some (Json.null, rest')
        | none => none
      else
        match parseNumber (c :: rest) with
        | some (raw, rest') => some (Json.num (String.mk raw), rest')
        | none => none

/-- One or more comma-separated array elements, then `]`. -/
def parseElems : Nat → List Char → Option (List Json × List Char)
  | 0, _ => none
  | Nat.succ fuel, cs =>
    match parseValue fuel cs with
    | some (v, rest) =>
      match skipWs rest with
      | ',' :: rest' =>
        match parseElems fuel rest' with
        | some (vs, rest'') => some (v :: vs, rest'')
        | none => none
      | ']' :: rest' => some ([v], rest')
      | _ => none
    | none => none

/-- One or more comma-separated `"key" : value` members, then the
closing brace. -/
def parseMembers : Nat → List Char → Option (List (String × Json) × List Char)
  | 0, _ => none
  | Nat.succ fuel, cs =>
    match skipWs cs with
    | '"' :: rest =>
      match parseStringChars rest with
      | some (key, rest1) =>
        match skipWs rest1 with
        | ':' :: rest2 =>
          match parseValue fuel rest2 with
          | some (v, rest3) =>
            match skipWs rest3 with
            | ',' :: rest4 =>
              match parseMembers fuel rest4 with
              | some (ms, rest5) => some ((String.mk key, v) :: ms, rest5)
              | none => none
            | '\x7d' :: rest4 => some ([(String.mk key, v)], rest4)
            | _ => none
          | none => none
        | _ => none
      | none => none
    | _ => none

end

/-- Model of `JSON.parse(text)`: one JSON value with leading and
trailing JSON whitespace, accepting exactly the texts the `JSON.parse`
grammar accepts; `none` models a thrown `SyntaxError`.  Every step of
the descent either stays on the same member/element (consuming at
least one character before recursing) or moves to the next one (after
a consumed comma), so the recursion depth never exceeds twice the
input length and the fuel `2·length + 2` is never exhausted on any
input. -/
def parseJson (s : String) : Option Json :=
  match parseValue (2 * s.length + 2) s.toList with
  | some (v, rest) => if (skipWs rest).isEmpty then some v else none
  | none => none

/-- Sanity checks pinning `parseJson` to `JSON.parse`: texts that
`JSON.parse` accepts parse, also outside the `serializeUser` shape —
the empty object, a bare number, `null` (which the effect stores
without a throw, leaving the session unauthenticated), whitespace
between tokens, and an object with an unquoted numeric id as the login
pages persist one — while texts `JSON.parse` refuses, such as an
object with a trailing comma, fail. -/
lemma parseJson_cases :
    parseJson "\x7b\x7d" = some (Json.obj []) ∧
    parseJson "123" = some (Json.num "123") ∧
    parseJson "null" = some Json.null ∧
    parseJson " \x7b \"id\" : 1 \x7d " = some (Json.obj [("id", Json.num "1")]) ∧
    parseJson "\x7b\"id\":1,\"name\":\"John Doe\"\x7d"
      = some (Json.obj [("id", Json.num "1"), ("name", Json.str "John Doe")]) ∧
    parseJson "not json" = none ∧
    parseJson "\x7b\"a\":1,\x7d" = none :=
  ⟨rfl, rfl, rfl, rfl, rfl, rfl, rfl⟩

/-- What the restore effect leaves behind: the value passed to
`setUser` (none when `setUser` is never reached — note that restoring
the text `null` passes the JSON null value), the `userType` state, the
`isLoading` flag, and whether an exception escaped the effect (in
which case `isLoading` keeps its initial `true`). -/
structure RestoreResult where
  user : Option Json
  userType : Option String
  loading : Bool
  threw : Bool

/-- The mount effect of `AuthProvider`: read both keys; when both are
truthy (present and non-blank) call `setUser(JSON.parse(savedUser))` —
a parse failure throws out of the effect before `setIsLoading(false)`
runs — then `setUserType(savedType)`; finally `setIsLoading(false)`. -/
def restore (st : Storage) : RestoreResult :=
  match st.user, st.userType with
  | some savedUser, some savedType =>
    if savedUser ≠ "" ∧ savedType ≠ "" then
      match parseJson savedUser with
      | some v =>
        { user := some v, userType := some savedType, loading := false, threw := false }
      | none =>
        { user := none, userType := none, loading := true, threw := true }
    else
      { user := none, userType := none, loading := false, threw := false }
  | _, _ => { user := none, userType := none, loading := false, threw := false }

/-- The session state: the two React states and the durable storage. -/
structure SessionState where
  user : Option User
  userType : Option UserType
  storage : Storage
deriving DecidableEq, Repr

/-- `isAuthenticated: !!user`. -/
def isAuthenticated (s : SessionState) : Bool := s.user.isSome

/-- A demo patient roster row. -/
structure DemoPatient where
  id : String
  name : String
  email : String
  password : String
  phone : String
deriving DecidableEq, Repr

/-- A demo doctor roster row. -/
structure DemoDoctor where
  id : String
  name : String
  email : String
  password : String
  specialization : String
deriving DecidableEq, Repr

/-- The fixed `DEMO_PATIENTS` roster. -/
def DEMO_PATIENTS : List DemoPatient :=
  [{ id := "1", name := "John Doe", email := "patient@demo.com",
     password := "patient123", phone := "+91 98765 43210" },
   { id := "2", name := "Sarah Smith", email := "sarah@demo.com",
     password := "demo123", phone := "+91 98765 43211" }]

/-- The fixed `DEMO_DOCTORS` roster. -/
def DEMO_DOCTORS : List DemoDoctor :=
  [{ id := "1", name := "Dr. Ramesh Kumar", email := "doctor@demo.com",
     password := "doctor123", specialization := "General Physician" },
   { id := "2", name := "Dr. Priya Sharma", email := "drpriya@demo.com",
     password := "demo123", specialization := "Dermatologist" }]

/-- `login(email, password, type)`: check the matching roster; on a hit
build the `User`, set both React states, write both storage keys and
return `true`; on a miss (or a null type) return `false` touching
nothing. -/
def login (s : SessionState) (email password : String) (type : Option UserType) :
    SessionState × Bool :=
  match type with
  | some UserType.patient =>
    match DEMO_PATIENTS.find? (fun p => p.email == email && p.password == password) with
    | some p =>
      let userData : User :=
        { id := p.id, name := p.name, email := p.email, type := UserType.patient,
          specialization := none, phone := some p.phone }
      ({ user := some userData, userType := some UserType.patient,
         storage := { user := some (serializeUser userData), userType := some "patient" } },
       true)
    | none => (s, false)
  | some UserType.doctor =>
    match DEMO_DOCTORS.find? (fun d => d.email == email && d.password == password) with
    | some d =>
      let userData : User :=
        { id := d.id, name := d.name, email := d.email, type := UserType.doctor,
          specialization := some d.specialization, phone := none }
      ({ user := some userData, userType := some UserType.doctor,
         storage := { user := some (serializeUser userData), userType := some "doctor" } },
       true)
    | none => (s, false)
  | none => (s, false)

/-- `logout()`: clear both React states and remove both storage keys,
unconditionally. -/
def logout (_s : SessionState) : SessionState :=
  { user := none, userType := none, storage := { user := none, userType := none } }

/-! ### C6 — restore on corrupted persisted data -/

/-- A corrupted persisted storage: both keys present, but the `user`
cell is not deserializable. -/
def corruptedStorage : Storage :=
  { user := some "not json", userType := some "patient" }

/-- C6 counterexample: with corrupted persisted data the restore effect
does not fail soft.  `JSON.parse` throws out of the effect, the
exception is visible to the caller, and `setIsLoading(false)` never
runs, so `loading` stays `true` — contradicting "without any thrown
error" and "sets loading = false exactly once, after the attempt". -/
theorem restore_corrupted_counterexample :
    (restore corruptedStorage).threw = true ∧
    (restore corruptedStorage).loading = true ∧
    restore corruptedStorage
      ≠ { user := none, userType := none, loading := false, threw := false } := by
  refine ⟨rfl, rfl, ?_⟩
  intro h
  exact absurd (congrArg RestoreResult.loading h) (by decide)

/-- C6 (amended): the restore effect sets `loading := false` exactly
when no exception escapes it; it throws exactly when both keys are
present and non-blank but the persisted `user` text is not
deserializable by the `JSON.parse` grammar (`parseJson` yields none),
and in that case the session user stays empty while `loading` remains
`true` — a deserialization failure is a thrown error visible outside
the effect, not a soft reset. -/
theorem restore_spec : ∀ st : Storage,
    ((restore st).threw = false → (restore st).loading = false) ∧
    ((restore st).threw = true →
        (restore st).user = none ∧ (restore st).loading = true) ∧
    ((restore st).threw = true ↔
        ∃ su ty, st.user = some su ∧ st.userType = some ty ∧
          su ≠ "" ∧ ty ≠ "" ∧ parseJson su = none) := by
  intro st
  rcases st with ⟨ou, ot⟩
  cases ou with
  | none => simp [restore]
  | some su =>
    cases ot with
    | none => simp [restore]
    | some ty =>
      by_cases hcond : su ≠ "" ∧ ty ≠ ""
      · cases hp : parseJson su with
        | some u => simp [restore, hcond, hp]
        | none => simp [restore, hcond, hp]
      · simp [restore, hcond]
        intro h1 h2
        exact absurd ⟨h1, h2⟩ hcond

/-- Concrete instantiation of the throw hypothesis of the amended C6. -/
theorem restore_spec_witness :
    (restore corruptedStorage).user = none ∧
    (restore corruptedStorage).loading = true :=
  (restore_spec corruptedStorage).2.1 rfl

/-! ### C7 — login against the demo rosters -/

/-- The empty, signed-out session state. -/
def emptySession : SessionState :=
  { user := none, userType := none, storage := { user := none, userType := none } }

/-- C7: from any prior state, `login` with the known patient
credentials `patient@demo.com` / `patient123` and type patient returns
`true` and leaves the session authenticated with an active user of type
patient; `login` for that email with any wrong password returns `false`
and leaves the session state and the persisted storage exactly as they
were. -/
theorem login_patient_spec : ∀ s : SessionState,
    ((login s "patient@demo.com" "patient123" (some UserType.patient)).2 = true ∧
      isAuthenticated
        (login s "patient@demo.com" "patient123" (some UserType.patient)).1 = true ∧
      ((login s "patient@demo.com" "patient123" (some UserType.patient)).1.user.map
          (fun u => u.type)) = some UserType.patient) ∧
    (∀ pw : String, pw ≠ "patient123" →
        login s "patient@demo.com" pw (some UserType.patient) = (s, false)) := by
  intro s
  constructor
  · exact ⟨rfl, rfl, rfl⟩
  · intro pw hpw
    have hne : (("patient123" : String) == pw) = false :=
      beq_eq_false_iff_ne.mpr (Ne.symm hpw)
    have hfind : DEMO_PATIENTS.find?
        (fun p => p.email == "patient@demo.com" && p.password == pw) = none := by
      simp [DEMO_PATIENTS, List.find?, hne]
    simp [login, hfind]

/-- Concrete instantiation of the wrong-password hypothesis of C7. -/
theorem login_patient_spec_witness :
    login emptySession "patient@demo.com" "wrong" (some UserType.patient)
      = (emptySession, false) :=
  (login_patient_spec emptySession).2 "wrong" (by decide)

/-! ### C8 — logout -/

/-- C8: from every prior session state, `logout` leaves the session
unauthenticated with no active user and removes both persisted keys —
the serialized identity and its role tag — together; it is idempotent,
so a second `logout` causes no error and yields the same cleared
state. -/
theorem logout_spec : ∀ s : SessionState,
    isAuthenticated (logout s) = false ∧
    (logout s).user = none ∧
    (logout s).storage.user = none ∧
    (logout s).storage.userType = none ∧
    logout (logout s) = logout s := by
  intro s
  exact ⟨rfl, rfl, rfl, rfl, rfl⟩

/-! ### Notification poller (consultations page) -/

/-- A notification row as the consultations page types it. -/
structure Notification where
  _id : String
  userId : String
  type : String
  title : String
  message : String
  read : Bool
  createdAt : String
  consultationId : Option Nat
deriving DecidableEq, Repr

/-- The notification state of the consultations page. -/
structure NotifState where
  notifications : List Notification
  unreadCount : Nat
deriving DecidableEq, Repr

/-- Outcome of the `api.getNotifications` round trip as
`loadNotifications` sees it: a decoded body whose `notifications` and
`unreadCount` fields may each be absent, or a thrown error. -/
inductive FetchOutcome where
  | ok (notifications : Option (List Notification)) (unreadCount : Option Nat)
  | thrown
deriving DecidableEq, Repr

/-- `loadNotifications()`: bail out when no user is signed in; on
success replace the list (`response.notifications || []`) and the count
(`response.unreadCount || 0`); on a thrown fetch only log the error —
the previous state is kept. -/
def loadNotifications (s : NotifState) (hasUser : Bool) (r : FetchOutcome) : NotifState :=
  if hasUser = false then s
  else
    match r with
    | .ok ns uc => { notifications := ns.getD [], unreadCount := uc.getD 0 }
    | .thrown => s

/-! ### C9 — poll failure keeps the previous list -/

/-- C9: a poll tick whose fetch throws leaves the previously known
notification list and unread count intact — the state is never reset to
empty on a fetch error; only a successful fetch replaces the list, with
the response's contents. -/
theorem poll_failure_keeps_previous :
    (∀ (s : NotifState) (hasUser : Bool), loadNotifications s hasUser .thrown = s) ∧
    (∀ (s : NotifState) (ns : List Notification) (uc : Nat),
        loadNotifications s true (.ok (some ns) (some uc))
          = { notifications := ns, unreadCount := uc }) := by
  constructor
  · intro s hasUser
    cases hasUser <;> rfl
  · intro s ns uc
    rfl

/-! ### C10 — restore needs both persisted keys -/

/-- C10: the restore effect recovers a session only when both durable
keys are read back: when either the serialized identity or the role tag
is absent from storage, the session stays empty — no user set, hence
not authenticated — loading ends false and nothing is thrown.  A saved
identity without its role tag, or a role tag without an identity, is
never restored. -/
theorem restore_requires_both_keys : ∀ st : Storage,
    st.user = none ∨ st.userType = none →
    restore st = { user := none, userType := none, loading := false, threw := false } := by
  intro st h
  rcases st with ⟨ou, ot⟩
  rcases h with h | h
  · cases h
    cases ot <;> rfl
  · cases h
    cases ou <;> rfl

/-- Concrete instantiation of C10's hypothesis: a saved identity with
no role tag is not restored. -/
theorem restore_requires_both_keys_witness :
    restore { user := some "abc", userType := none }
      = { user := none, userType := none, loading := false, threw := false } :=
  restore_requires_both_keys { user := some "abc", userType := none } (Or.inr rfl)

end Portal
